import Mathlib

/-!
Shallow embedding of the MCX workspace snapshot engine
(`PinataService` in `src/services/ipfs/PinataService.ts` and the
`PluginIPFSCommit` / `PluginIPFSSync` command handlers in `src/extension.ts`).

External effects (the Pinata SDK, the VS Code settings store, the
filesystem) are modelled by explicit state passing: an oracle records the
outcome of each external call, and the functions return the updated
service state, the updated settings, and a trace of the externally visible
events (unpin, upload, pointer update, fetch, directory creation, file
write) in the order the source issues them.
-/

namespace MCX

/-- A JavaScript runtime value, as far as the engine observes it: the
validation and fallback logic of the source only tests truthiness and
otherwise treats payloads as opaque. -/
inductive JSVal where
  | undef
  | nullv
  | boolean (b : Bool)
  | number (n : Int)
  | string (s : String)
  | array
  | object
deriving DecidableEq

/-- JavaScript truthiness: `undefined`, `null`, `false`, `0` and the empty
string are falsy; arrays and objects are truthy. -/
def JSVal.truthy : JSVal → Bool
  | .undef => false
  | .nullv => false
  | .boolean b => b
  | .number n => n != 0
  | .string s => s != ""
  | .array => true
  | .object => true

/-- Truthiness of an optional string, as JavaScript `if (x)` sees a
`string | undefined` value: absent and empty both count as false. -/
def strTruthy : Option String → Bool
  | none => false
  | some s => s != ""

/-- JavaScript `a || b` on optional strings: an absent value and the empty
string both fall through to `b`. -/
def strOr (a b : Option String) : Option String :=
  if strTruthy a then a else b

/-- File content as its byte sequence.  The source decodes bytes with
`Buffer.from(content).toString("utf8")` and only ever inspects the decoded
text for the null character; UTF-8 decoding preserves null-byte presence,
so content is modelled by its bytes. -/
abbrev ByteSeq := List Nat

/-- The `vscode.FileType` cases the source dispatches on. -/
inductive FileType where
  | file
  | directory
  | symbolicLink
  | unknown
deriving DecidableEq

/-- One entry of the enumeration produced by
`vscode.workspace.findFiles(pattern, "**/node_modules/**")`, in its
(implementation-defined but per-call deterministic) order.  `ignored`
records whether the path matches the exclude glob; `statResult = none`
models `fs.stat` throwing; `content = none` models `fs.readFile`
throwing. -/
structure FsEntry where
  path : String
  ignored : Bool
  statResult : Option FileType
  content : Option ByteSeq
deriving DecidableEq

/-- The `WorkspaceState` interface of the source, field for field. -/
structure WorkspaceState where
  version : String
  timestamp : String
  workspaceId : String
  apiConfiguration : JSVal
  clineMessages : JSVal
  currentTask : JSVal
  autoApprovalSettings : JSVal
  browserSettings : JSVal
  files : List (String × ByteSeq)
  folders : List String
deriving DecidableEq

/-- The optional extension-state provider reached through
`vscode.extensions.getExtension(...)?.exports?.getStateProvider?.()`:
five opaque getters. -/
structure ExtensionStateProvider where
  apiConfiguration : JSVal
  clineMessages : JSVal
  currentTask : JSVal
  autoApprovalSettings : JSVal
  browserSettings : JSVal
deriving DecidableEq

/-- JavaScript `v || d` on opaque values. -/
def jsOr (v d : JSVal) : JSVal :=
  if v.truthy then v else d

/-- Chained optional call `provider?.getX?.()`: absent provider yields
`undefined`. -/
def providerGet (p : Option ExtensionStateProvider)
    (f : ExtensionStateProvider → JSVal) : JSVal :=
  match p with
  | none => .undef
  | some q => f q

/-- The file cap of `uris.slice(0, 100)` in `serializeWorkspaceState`. -/
def fileCap : Nat := 100

/-- Source `isTextFile`: content is text when it contains no null byte. -/
def isTextFile (content : ByteSeq) : Bool :=
  !(content.contains 0)

/-- JavaScript object assignment `files[k] = v`: replace in place when the
key exists, otherwise append in insertion order. -/
def setKey (m : List (String × ByteSeq)) (k : String) (v : ByteSeq) :
    List (String × ByteSeq) :=
  if m.any (fun p => p.1 == k) then
    m.map (fun p => if p.1 == k then (k, v) else p)
  else
    m ++ [(k, v)]

/-- Body of the per-uri loop in `serializeWorkspaceState`.  The whole body
is wrapped in a `try` whose `catch` only logs a warning, so a failing
`stat` or `readFile` skips the entry and the loop continues. -/
def processEntry (acc : List (String × ByteSeq) × List String) (e : FsEntry) :
    List (String × ByteSeq) × List String :=
  match e.statResult with
  | none => acc
  | some .file =>
    match e.content with
    | none => acc
    | some bytes =>
      if isTextFile bytes then (setKey acc.1 e.path bytes, acc.2) else acc
  | some .directory => (acc.1, acc.2 ++ [e.path])
  | some _ => acc

/-- The loop of `serializeWorkspaceState` over an already filtered and
sliced enumeration. -/
def processEntries (l : List FsEntry) : List (String × ByteSeq) × List String :=
  l.foldl processEntry ([], [])

/-- `findFiles` applies the exclude pattern, then `uris.slice(0, 100)`
truncates the enumeration before any entry is read. -/
def enumerationSlice (entries : List FsEntry) : List FsEntry :=
  (entries.filter (fun e => !e.ignored)).take fileCap

/-- Source `serializeWorkspaceState`, for one workspace folder whose
`findFiles` enumeration is `entries`.  `timestamp` stands for
`new Date().toISOString()`. -/
def serializeWorkspaceState (workspaceId timestamp : String)
    (provider : Option ExtensionStateProvider) (entries : List FsEntry) :
    WorkspaceState :=
  let fs := processEntries (enumerationSlice entries)
  { version := "1.0.0"
    timestamp := timestamp
    workspaceId := workspaceId
    apiConfiguration := jsOr (providerGet provider (fun p => p.apiConfiguration)) .object
    clineMessages := jsOr (providerGet provider (fun p => p.clineMessages)) .array
    currentTask := jsOr (providerGet provider (fun p => p.currentTask)) .nullv
    autoApprovalSettings := jsOr (providerGet provider (fun p => p.autoApprovalSettings)) .object
    browserSettings := jsOr (providerGet provider (fun p => p.browserSettings)) .object
    files := fs.1
    folders := fs.2 }

/-- The `cline.*` settings the engine reads and writes through
`vscode.workspace.getConfiguration("cline")`. -/
structure ClineSettings where
  pinataJwt : Option String
  pinataGateway : Option String
  workspaceIpfsCID : Option String
deriving DecidableEq

/-- The environment variables the credential lookup consults. -/
structure ProcessEnv where
  pinataJwt : Option String
  pinataGateway : Option String
deriving DecidableEq

/-- The `PinataConfig` interface of the source. -/
structure PinataConfig where
  jwt : String
  gateway : Option String
deriving DecidableEq

/-- The hard-coded development JWT embedded in `getPinataConfig` (and
duplicated in both command handlers of `extension.ts`). -/
def hardcodedJwt : String :=
  "eyJhbGciOiJIUzI1NiIsInR5cCI6IkpXVCJ9.eyJ1c2VySW5mb3JtYXRpb24iOnsiaWQiOiIzZTFkNzQ5YS05NTg2LTRhZWItOWRkNC0wNzQzZGZkMWRkMDgiLCJlbWFpbCI6InByaXlhbmt0ZWNocGFuY2hhbEBnbWFpbC5jb20iLCJlbWFpbF92ZXJpZmllZCI6dHJ1ZSwicGluX3BvbGljeSI6eyJyZWdpb25zIjpbeyJkZXNpcmVkUmVwbGljYXRpb25Db3VudCI6MSwiaWQiOiJGUkExIn0seyJkZXNpcmVkUmVwbGljYXRpb25Db3VudCI6MSwiaWQiOiJOWUMxIn1dLCJ2ZXJzaW9uIjoxfSwibWZhX2VuYWJsZWQiOmZhbHNlLCJzdGF0dXMiOiJBQ1RJVkUifSwiYXV0aGVudGljYXRpb25UeXBlIjoic2NvcGVkS2V5Iiwic2NvcGVkS2V5S2V5IjoiYjMyNTIxMDgxZmI3Mzc5MGYwMDUiLCJzY29wZWRLZXlTZWNyZXQiOiI1NjJlNDkxMTc5ZWQ5ZDY2MGQxNWZmOGYxMDRlOWRkMjAwZWU5MWY1OWI1NzNmNThkNzVhZjE3MTM0NTZkNWQyIiwiZXhwIjoxNzg5MzI3MTM2fQ.pqkOlJYoXHTvPBfwe5xN3aoELp55WTR45UvGsBCaQyE"

/-- Source `getPinataConfig`: settings value, else environment variable,
else the hard-coded development fallback; the final `if (!jwt) return
null` check is kept even though the fallback makes it unreachable. -/
def getPinataConfig (settings : ClineSettings) (env : ProcessEnv) :
    Option PinataConfig :=
  let jwt1 := strOr settings.pinataJwt env.pinataJwt
  let gateway1 := strOr settings.pinataGateway
    (strOr env.pinataGateway (some "gateway.pinata.cloud"))
  let jwt2 := strOr jwt1 (some hardcodedJwt)
  if strTruthy jwt2 then
    some { jwt := jwt2.getD "", gateway := strOr gateway1 (some "gateway.pinata.cloud") }
  else
    none

/-- State of a `PinataService` instance: `pinataInitialized` models whether
the `pinata` SDK handle is non-null. -/
structure PinataService where
  workspaceId : String
  pinataInitialized : Bool
  currentCID : Option String
deriving DecidableEq

/-- The constructor `new PinataService(workspaceId)`. -/
def PinataService.new (workspaceId : String) : PinataService :=
  { workspaceId := workspaceId, pinataInitialized := false, currentCID := none }

/-- Source `initialize(config)`: constructs the SDK handle (so the handle
is set even when the subsequent `testAuthentication` throws) and reports
whether authentication succeeded. -/
def initSdk (svc : PinataService) (_config : PinataConfig) (authOk : Bool) :
    Bool × PinataService :=
  (authOk, { svc with pinataInitialized := true })

/-- Source `ensureInitialized`. -/
def ensureInitialized (svc : PinataService) (settings : ClineSettings)
    (env : ProcessEnv) (authOk : Bool) : Bool × PinataService :=
  if svc.pinataInitialized then (true, svc)
  else
    match getPinataConfig settings env with
    | none => (false, svc)
    | some cfg => initSdk svc cfg authOk

/-- Externally visible events, in the order the source issues them. -/
inductive Event where
  | unpin (cid : String)
  | uploadAttempt
  | uploadSuccess (cid : String)
  | settingsUpdateCID (cid : Option String)
  | fetch (cid : String)
  | createDir (path : String)
  | fileWrite (path : String)
deriving DecidableEq

/-- Outcomes of the external calls a commit makes.  `uploadFn` maps the
uploaded snapshot to the `IpfsHash` the store assigns (`none` models the
upload throwing); unpin and email failures are caught and swallowed by the
source, so their outcomes do not affect control flow. -/
structure CommitOracle where
  authOk : Bool
  uploadFn : WorkspaceState → Option String
  userEmail : Option String

/-- Return value, post-state and event trace of one `commitToIPFS` call. -/
structure CommitResult where
  ret : Option String
  svc : PinataService
  settings : ClineSettings
  events : List Event

/-- Source `commitToIPFS`: ensure initialization; serialize; when an
in-memory current CID exists, unpin it (inside a `try` whose failure is
only logged) — note this happens before the upload; upload; on upload
success set the in-memory CID and persist it to the
`cline.workspace.ipfsCID` setting; an upload failure is caught by the
outer `catch`, which returns `null` leaving service state and settings
untouched. -/
def commitToIPFS (svc : PinataService) (settings : ClineSettings)
    (env : ProcessEnv) (timestamp : String)
    (provider : Option ExtensionStateProvider) (entries : List FsEntry)
    (o : CommitOracle) : CommitResult :=
  match ensureInitialized svc settings env o.authOk with
  | (false, svc1) => { ret := none, svc := svc1, settings := settings, events := [] }
  | (true, svc1) =>
    let ws := serializeWorkspaceState svc1.workspaceId timestamp provider entries
    let ev1 : List Event :=
      match svc1.currentCID with
      | some old => [.unpin old]
      | none => []
    match o.uploadFn ws with
    | none =>
      { ret := none, svc := svc1, settings := settings
        events := ev1 ++ [.uploadAttempt] }
    | some newCid =>
      { ret := some newCid
        svc := { svc1 with currentCID := some newCid }
        settings := { settings with workspaceIpfsCID := some newCid }
        events := ev1 ++ [.uploadAttempt, .uploadSuccess newCid,
          .settingsUpdateCID (some newCid)] }

/-- The decoded blob as `loadFromIPFS` sees it after the cast to
`WorkspaceState`: the two fields the validation reads, as arbitrary
JavaScript values, plus the fields `syncFromIPFS` consumes. -/
structure FetchedBlob where
  version : JSVal
  workspaceId : JSVal
  files : List (String × ByteSeq)
  folders : List String
deriving DecidableEq

/-- Return value, post-state and event trace of one `loadFromIPFS` call. -/
structure LoadResult where
  ret : Option FetchedBlob
  svc : PinataService
  settings : ClineSettings
  events : List Event

/-- Source `loadFromIPFS`: ensure initialization; fetch (`none` models the
gateway call throwing); validate with
`if (!workspaceState.version || !workspaceState.workspaceId) throw` —
a truthiness check, not a type check; on success set the in-memory CID
and persist it to the `cline.workspace.ipfsCID` setting and return the
decoded blob. -/
def loadFromIPFS (svc : PinataService) (settings : ClineSettings)
    (env : ProcessEnv) (cid : String) (authOk : Bool)
    (fetchResult : Option FetchedBlob) : LoadResult :=
  match ensureInitialized svc settings env authOk with
  | (false, svc1) => { ret := none, svc := svc1, settings := settings, events := [] }
  | (true, svc1) =>
    match fetchResult with
    | none => { ret := none, svc := svc1, settings := settings, events := [.fetch cid] }
    | some blob =>
      if !blob.version.truthy || !blob.workspaceId.truthy then
        { ret := none, svc := svc1, settings := settings, events := [.fetch cid] }
      else
        { ret := some blob
          svc := { svc1 with currentCID := some cid }
          settings := { settings with workspaceIpfsCID := some cid }
          events := [.fetch cid, .settingsUpdateCID (some cid)] }

/-- The file-restore loop of `syncFromIPFS` over `Object.entries(files)`.
The per-file parent-directory creation sits in its own `try` and cannot
affect control flow; `writeFile` does not — its exception propagates to
the outer `catch`, so a failed write ends the loop with the remaining
files unwritten. -/
def syncWrites (files : List (String × ByteSeq)) (writeOk : String → Bool) :
    Bool × List Event :=
  match files with
  | [] => (true, [])
  | (p, _c) :: rest =>
    if writeOk p then
      let r := syncWrites rest writeOk
      (r.1, .fileWrite p :: r.2)
    else
      (false, [])

/-- Source `syncFromIPFS`: when a workspace folder exists, create every
folder of the snapshot (each `createDirectory` is wrapped in a `try`, so
already-exists and other failures are swallowed), then write the files in
order; the first failing write falls to the outer `catch`, which reports
failure.  Without a workspace folder the whole block is skipped and the
call still reports success. -/
def syncFromIPFS (hasWorkspaceFolder : Bool) (ws : FetchedBlob)
    (writeOk : String → Bool) : Bool × List Event :=
  if hasWorkspaceFolder then
    let folderEvs := ws.folders.map Event.createDir
    let w := syncWrites ws.files writeOk
    (w.1, folderEvs ++ w.2)
  else
    (true, [])

/-- Source `getCurrentCID`: the in-memory field when truthy, else the
persisted setting, else `null`. -/
def getCurrentCID (svc : PinataService) (settings : ClineSettings) :
    Option String :=
  if strTruthy svc.currentCID then svc.currentCID
  else if strTruthy settings.workspaceIpfsCID then settings.workspaceIpfsCID
  else none

/-- Source `setCurrentCID`. -/
def setCurrentCID (svc : PinataService) (cid : String) : PinataService :=
  { svc with currentCID := some cid }

/-- The credential resolution duplicated inside both command handlers of
`extension.ts`: settings, else environment, else the hard-coded token. -/
def handlerJwt (settings : ClineSettings) (env : ProcessEnv) : Option String :=
  strOr (strOr settings.pinataJwt env.pinataJwt) (some hardcodedJwt)

/-- The `PluginIPFSCommit` command handler: constructs a fresh
`PinataService` (in-memory CID starts as `null`), resolves a JWT with the
same three-level fallback, and calls `commitToIPFS`. -/
def pluginIPFSCommitHandler (workspaceName : String) (settings : ClineSettings)
    (env : ProcessEnv) (timestamp : String)
    (provider : Option ExtensionStateProvider) (entries : List FsEntry)
    (o : CommitOracle) : CommitResult :=
  let svc := PinataService.new workspaceName
  if strTruthy (handlerJwt settings env) then
    commitToIPFS svc settings env timestamp provider entries o
  else
    { ret := none, svc := svc, settings := settings, events := [] }

/-- Outcome of the `PluginIPFSSync` command handler. -/
structure SyncHandlerResult where
  loaded : Option FetchedBlob
  settings : ClineSettings
  events : List Event

/-- The `PluginIPFSSync` command handler: constructs a fresh
`PinataService`, resolves a JWT, calls `loadFromIPFS`, and only when that
returns a snapshot calls `syncFromIPFS` on it. -/
def pluginIPFSSyncHandler (workspaceName cid : String)
    (settings : ClineSettings) (env : ProcessEnv) (hasWorkspaceFolder : Bool)
    (authOk : Bool) (fetchResult : Option FetchedBlob)
    (writeOk : String → Bool) : SyncHandlerResult :=
  let svc := PinataService.new workspaceName
  if strTruthy (handlerJwt settings env) then
    let r := loadFromIPFS svc settings env cid authOk fetchResult
    match r.ret with
    | none => { loaded := none, settings := r.settings, events := r.events }
    | some blob =>
      let s := syncFromIPFS hasWorkspaceFolder blob writeOk
      { loaded := some blob, settings := r.settings, events := r.events ++ s.2 }
  else
    { loaded := none, settings := settings, events := [] }

/-! ## Helper lemmas -/

/-- Initialization never touches the in-memory current CID. -/
theorem ensureInitialized_currentCID (svc : PinataService)
    (settings : ClineSettings) (env : ProcessEnv) (authOk : Bool) :
    (ensureInitialized svc settings env authOk).2.currentCID = svc.currentCID := by
  unfold ensureInitialized initSdk
  split
  · rfl
  · split <;> rfl

/-- Initialization never touches the workspace identifier. -/
theorem ensureInitialized_workspaceId (svc : PinataService)
    (settings : ClineSettings) (env : ProcessEnv) (authOk : Bool) :
    (ensureInitialized svc settings env authOk).2.workspaceId = svc.workspaceId := by
  unfold ensureInitialized initSdk
  split
  · rfl
  · split <;> rfl

/-- An already initialized service passes `ensureInitialized` unchanged. -/
theorem ensureInitialized_of_initialized (svc : PinataService)
    (settings : ClineSettings) (env : ProcessEnv) (authOk : Bool)
    (h : svc.pinataInitialized = true) :
    ensureInitialized svc settings env authOk = (true, svc) := by
  unfold ensureInitialized
  rw [h]
  rfl

/-- C1: commit is atomic with respect to the pointer.  When every upload
attempt fails, `commitToIPFS` returns `null`, the in-memory current CID is
unchanged, and the persisted `cline.workspace.ipfsCID` setting is
unchanged — on every path, including the initialization-failure path where
the upload is never attempted. -/
theorem commit_atomic_on_upload_failure (svc : PinataService)
    (settings : ClineSettings) (env : ProcessEnv) (timestamp : String)
    (provider : Option ExtensionStateProvider) (entries : List FsEntry)
    (o : CommitOracle) (hfail : ∀ w, o.uploadFn w = none) :
    (commitToIPFS svc settings env timestamp provider entries o).svc.currentCID
        = svc.currentCID
    ∧ (commitToIPFS svc settings env timestamp provider entries o).settings.workspaceIpfsCID
        = settings.workspaceIpfsCID
    ∧ (commitToIPFS svc settings env timestamp provider entries o).ret = none := by
  unfold commitToIPFS
  have hcid := ensureInitialized_currentCID svc settings env o.authOk
  rcases h : ensureInitialized svc settings env o.authOk with ⟨ok, svc1⟩
  rw [h] at hcid
  cases ok
  · exact ⟨hcid, rfl, rfl⟩
  · simp only [hfail]
    exact ⟨hcid, by simp, by simp⟩

/-- Witness for C1 at a concrete input: a workspace whose current pointer
is `QmOld`, every upload failing. -/
theorem commit_atomic_on_upload_failure_witness :
    (commitToIPFS ⟨"w", true, some "QmOld"⟩ ⟨none, none, some "QmOld"⟩
        ⟨none, none⟩ "t" none [] ⟨true, fun _ => none, none⟩).svc.currentCID
        = some "QmOld"
    ∧ (commitToIPFS ⟨"w", true, some "QmOld"⟩ ⟨none, none, some "QmOld"⟩
        ⟨none, none⟩ "t" none [] ⟨true, fun _ => none, none⟩).settings.workspaceIpfsCID
        = some "QmOld"
    ∧ (commitToIPFS ⟨"w", true, some "QmOld"⟩ ⟨none, none, some "QmOld"⟩
        ⟨none, none⟩ "t" none [] ⟨true, fun _ => none, none⟩).ret = none :=
  commit_atomic_on_upload_failure ⟨"w", true, some "QmOld"⟩
    ⟨none, none, some "QmOld"⟩ ⟨none, none⟩ "t" none []
    ⟨true, fun _ => none, none⟩ (fun _ => rfl)

/-- C2 counterexample: commit for a workspace whose previous ContentId is
`QmOld` and whose upload succeeds with `QmNew`.  The event trace shows the
unpin of the previous ContentId as the very first action — before the
upload — while the pointer update comes last, so the unpin of `QmOld`
strictly precedes the pointer move; the claimed order (upload, then
pointer set, and only then unpin) is false on the code. -/
theorem commit_order_counterexample :
    (commitToIPFS ⟨"w", true, some "QmOld"⟩ ⟨none, none, some "QmOld"⟩
        ⟨none, none⟩ "t" none [] ⟨true, fun _ => some "QmNew", none⟩).events
      = [.unpin "QmOld", .uploadAttempt, .uploadSuccess "QmNew",
         .settingsUpdateCID (some "QmNew")]
    ∧ (commitToIPFS ⟨"w", true, some "QmOld"⟩ ⟨none, none, some "QmOld"⟩
        ⟨none, none⟩ "t" none [] ⟨true, fun _ => some "QmNew", none⟩).events.indexOf
          (Event.unpin "QmOld")
      < (commitToIPFS ⟨"w", true, some "QmOld"⟩ ⟨none, none, some "QmOld"⟩
        ⟨none, none⟩ "t" none [] ⟨true, fun _ => some "QmNew", none⟩).events.indexOf
          (Event.settingsUpdateCID (some "QmNew")) := by
  exact ⟨rfl, by decide⟩

/-- C2 as amended: in a commit for a workspace that has a previous
ContentId (and an initialized SDK handle), the best-effort unpin of the
previous ContentId is issued first, before the upload is attempted; only
after a successful upload are the in-memory CID and the persisted pointer
setting advanced to the new ContentId, and on upload failure the trace
ends at the upload attempt. -/
theorem commit_unpins_previous_before_upload (svc : PinataService)
    (settings : ClineSettings) (env : ProcessEnv) (timestamp : String)
    (provider : Option ExtensionStateProvider) (entries : List FsEntry)
    (o : CommitOracle) (prev : String)
    (hinit : svc.pinataInitialized = true) (hprev : svc.currentCID = some prev) :
    ((commitToIPFS svc settings env timestamp provider entries o).events.head?
        = some (.unpin prev))
    ∧ (∀ cid,
        o.uploadFn (serializeWorkspaceState svc.workspaceId timestamp provider entries)
          = some cid →
        (commitToIPFS svc settings env timestamp provider entries o).events
            = [.unpin prev, .uploadAttempt, .uploadSuccess cid,
               .settingsUpdateCID (some cid)]
        ∧ (commitToIPFS svc settings env timestamp provider entries o).settings.workspaceIpfsCID
            = some cid
        ∧ (commitToIPFS svc settings env timestamp provider entries o).svc.currentCID
            = some cid)
    ∧ (o.uploadFn (serializeWorkspaceState svc.workspaceId timestamp provider entries)
          = none →
        (commitToIPFS svc settings env timestamp provider entries o).events
          = [.unpin prev, .uploadAttempt]) := by
  unfold commitToIPFS
  rw [ensureInitialized_of_initialized svc settings env o.authOk hinit]
  refine ⟨?_, ?_, ?_⟩
  · rcases h : o.uploadFn (serializeWorkspaceState svc.workspaceId timestamp provider entries) with _ | cid
    · simp only [h, hprev]
      rfl
    · simp only [h, hprev]
      rfl
  · intro cid h
    simp [h, hprev]
  · intro h
    simp [h, hprev]

/-- Witness for C2's amended theorem at a concrete input. -/
theorem commit_unpins_previous_before_upload_witness :
    ((commitToIPFS ⟨"ws", true, some "QmPrev"⟩ ⟨none, none, some "QmPrev"⟩
        ⟨none, none⟩ "t" none [] ⟨true, fun _ => some "QmFresh", none⟩).events.head?
        = some (.unpin "QmPrev"))
    ∧ (commitToIPFS ⟨"ws", true, some "QmPrev"⟩ ⟨none, none, some "QmPrev"⟩
        ⟨none, none⟩ "t" none [] ⟨true, fun _ => some "QmFresh", none⟩).events
        = [.unpin "QmPrev", .uploadAttempt, .uploadSuccess "QmFresh",
           .settingsUpdateCID (some "QmFresh")]
    ∧ (commitToIPFS ⟨"ws", true, some "QmPrev"⟩ ⟨none, none, some "QmPrev"⟩
        ⟨none, none⟩ "t" none [] ⟨true, fun _ => some "QmFresh", none⟩).settings.workspaceIpfsCID
        = some "QmFresh" := by
  have h := commit_unpins_previous_before_upload ⟨"ws", true, some "QmPrev"⟩
    ⟨none, none, some "QmPrev"⟩ ⟨none, none⟩ "t" none []
    ⟨true, fun _ => some "QmFresh", none⟩ "QmPrev" rfl rfl
  exact ⟨h.1, (h.2.1 "QmFresh" rfl).1, (h.2.1 "QmFresh" rfl).2.1⟩

/-- Restore-loop behaviour at the first failing write: every earlier file
was written, the failing file ends the loop, and nothing after it is
attempted. -/
theorem syncWrites_abort (writeOk : String → Bool)
    (pre : List (String × ByteSeq)) (p : String) (c : ByteSeq)
    (suf : List (String × ByteSeq))
    (hpre : ∀ q ∈ pre, writeOk q.1 = true) (hp : writeOk p = false) :
    syncWrites (pre ++ (p, c) :: suf) writeOk
      = (false, pre.map (fun q => Event.fileWrite q.1)) := by
  induction pre with
  | nil => simp [syncWrites, hp]
  | cons q rest ih =>
    obtain ⟨qp, qc⟩ := q
    have hq : writeOk qp = true := hpre (qp, qc) (by simp)
    have ih2 := ih (fun r hr => hpre r (by simp [hr]))
    simp [syncWrites, hq, ih2]

/-- C3 counterexample: a snapshot with two files where the write of the
first fails.  The claim predicts that the second file is still written and
the failure is only collected as a diagnostic; the code instead lets the
exception reach the outer catch, so the operation returns failure and the
second file is never written — the trace contains no write event at
all. -/
theorem sync_write_failure_aborts_counterexample :
    (syncFromIPFS true
        ⟨.string "1.0.0", .string "w", [("a.txt", [104]), ("b.txt", [105])], []⟩
        (fun p => p != "a.txt")).1 = false
    ∧ Event.fileWrite "b.txt"
        ∉ (syncFromIPFS true
            ⟨.string "1.0.0", .string "w", [("a.txt", [104]), ("b.txt", [105])], []⟩
            (fun p => p != "a.txt")).2 := by
  exact ⟨rfl, by decide⟩

/-- C3 as amended: during materialization, a failure to write one file
aborts the remaining writes — the files before the failing one are
written, the files after it are never attempted, and the whole operation
reports failure; no per-file diagnostics list is kept. -/
theorem sync_write_failure_aborts (hasWF : Bool) (blob : FetchedBlob)
    (writeOk : String → Bool) (pre : List (String × ByteSeq)) (p : String)
    (c : ByteSeq) (suf : List (String × ByteSeq))
    (hasWFtrue : hasWF = true)
    (hfiles : blob.files = pre ++ (p, c) :: suf)
    (hpre : ∀ q ∈ pre, writeOk q.1 = true) (hp : writeOk p = false) :
    (syncFromIPFS hasWF blob writeOk).1 = false
    ∧ (syncFromIPFS hasWF blob writeOk).2
        = blob.folders.map Event.createDir
          ++ pre.map (fun q => Event.fileWrite q.1) := by
  subst hasWFtrue
  unfold syncFromIPFS
  rw [hfiles, syncWrites_abort writeOk pre p c suf hpre hp]
  exact ⟨rfl, rfl⟩

/-- Witness for C3's amended theorem at a concrete input: folder `sub`,
files `a.txt` (write succeeds) then `b.txt` (write fails) then `c.txt`. -/
theorem sync_write_failure_aborts_witness :
    (syncFromIPFS true
        ⟨.string "1.0.0", .string "w",
          [("a.txt", [104]), ("b.txt", [105]), ("c.txt", [106])], ["sub"]⟩
        (fun p => p != "b.txt")).1 = false
    ∧ (syncFromIPFS true
        ⟨.string "1.0.0", .string "w",
          [("a.txt", [104]), ("b.txt", [105]), ("c.txt", [106])], ["sub"]⟩
        (fun p => p != "b.txt")).2
      = [Event.createDir "sub", Event.fileWrite "a.txt"] := by
  have h := sync_write_failure_aborts true
    ⟨.string "1.0.0", .string "w",
      [("a.txt", [104]), ("b.txt", [105]), ("c.txt", [106])], ["sub"]⟩
    (fun p => p != "b.txt") [("a.txt", [104])] "b.txt" [105] [("c.txt", [106])]
    rfl rfl (by decide) (by decide)
  exact ⟨h.1, h.2⟩

/-- C4 counterexample: a commit whose enumeration holds one unreadable
file produces a snapshot, a returned value, a post-state and an event
trace all identical to those of a commit whose enumeration is empty (the
upload outcome here is a function of the uploaded snapshot, so the store
cannot distinguish them either).  The caller-visible outcome therefore
carries no record of the skipped file: no diagnostics list is returned
alongside the ContentId — the source only logs a console warning. -/
theorem serialization_skip_not_returned_counterexample :
    serializeWorkspaceState "w" "t" none [⟨"a.txt", false, some .file, none⟩]
      = serializeWorkspaceState "w" "t" none []
    ∧ commitToIPFS ⟨"w", true, none⟩ ⟨none, none, none⟩ ⟨none, none⟩ "t" none
        [⟨"a.txt", false, some .file, none⟩]
        ⟨true, fun w => some ("Qm" ++ toString w.files.length), none⟩
      = commitToIPFS ⟨"w", true, none⟩ ⟨none, none, none⟩ ⟨none, none⟩ "t" none []
        ⟨true, fun w => some ("Qm" ++ toString w.files.length), none⟩ := by
  exact ⟨rfl, rfl⟩

/-- C4 as amended: a per-file read error during serialization is
non-fatal — the offending file is skipped and the remaining entries of
the (already filtered and sliced) enumeration are processed exactly as if
the unreadable entry were absent; the skip is only logged to the console,
and no diagnostics list is returned alongside the ContentId. -/
theorem serialization_read_error_skips
    (acc : List (String × ByteSeq) × List String) (l1 l2 : List FsEntry)
    (e : FsEntry) (hstat : e.statResult = some .file) (hread : e.content = none) :
    (l1 ++ e :: l2).foldl processEntry acc = (l1 ++ l2).foldl processEntry acc := by
  have hskip : ∀ x, processEntry x e = x := by
    intro x
    unfold processEntry
    rw [hstat, hread]
  rw [List.foldl_append, List.foldl_append, List.foldl_cons, hskip]

/-- Readable text file used by concrete instances. -/
def okEntry1 : FsEntry := ⟨"ok.txt", false, some .file, some [104]⟩

/-- Unreadable file (its `readFile` throws) used by concrete instances. -/
def badEntry : FsEntry := ⟨"bad.txt", false, some .file, none⟩

/-- Second readable text file used by concrete instances. -/
def okEntry2 : FsEntry := ⟨"ok2.txt", false, some .file, some [105]⟩

/-- Witness for C4's amended theorem at a concrete input: an unreadable
file between two readable ones. -/
theorem serialization_read_error_skips_witness :
    ([okEntry1] ++ badEntry :: [okEntry2]).foldl processEntry ([], [])
      = ([okEntry1] ++ [okEntry2]).foldl processEntry ([], []) :=
  serialization_read_error_skips ([], []) [okEntry1] [okEntry2] badEntry rfl rfl

/-- When the right operand of `||` is truthy, so is the result. -/
theorem strOr_truthy_right (a b : Option String) (hb : strTruthy b = true) :
    strTruthy (strOr a b) = true := by
  unfold strOr
  split
  · assumption
  · exact hb

/-- The handlers' three-level credential lookup always produces a truthy
JWT, because its last fallback is the non-empty hard-coded token. -/
theorem handlerJwt_truthy (settings : ClineSettings) (env : ProcessEnv) :
    strTruthy (handlerJwt settings env) = true :=
  strOr_truthy_right _ _ (by decide)

/-- A freshly constructed service always initializes (given successful
authentication): the credential lookup cannot fail thanks to the
hard-coded fallback. -/
theorem ensureInitialized_fresh (wsName : String) (settings : ClineSettings)
    (env : ProcessEnv) :
    ensureInitialized (PinataService.new wsName) settings env true
      = (true, ⟨wsName, true, none⟩) := by
  unfold ensureInitialized PinataService.new getPinataConfig initSdk
  have h : strTruthy (strOr (strOr settings.pinataJwt env.pinataJwt)
      (some hardcodedJwt)) = true :=
    strOr_truthy_right _ _ (by decide)
  simp [h]

/-- Blob whose `version` field is present but a number, not a string. -/
def wrongTypedBlob : FetchedBlob := ⟨.number 5, .string "w", [("a.txt", [104])], []⟩

/-- C5 counterexample: a fetched blob whose `version` (the source's name
for the schema-version field) is present but is the number `5` — not of
the expected string type.  The claim predicts restore fails with
InvalidFormat and no materialization; the code's truthiness check passes
the number, the snapshot is returned, and materialization writes its
file. -/
theorem load_type_validation_counterexample :
    (pluginIPFSSyncHandler "w" "QmX" ⟨none, none, none⟩ ⟨none, none⟩ true true
        (some wrongTypedBlob) (fun _ => true)).loaded = some wrongTypedBlob
    ∧ Event.fileWrite "a.txt"
        ∈ (pluginIPFSSyncHandler "w" "QmX" ⟨none, none, none⟩ ⟨none, none⟩ true true
            (some wrongTypedBlob) (fun _ => true)).events := by
  exact ⟨rfl, by decide⟩

/-- C5 as amended: restore fails — returning no snapshot, with no
materialization attempted and the pointer setting untouched — whenever the
fetched blob's `version` or `workspaceId` field is falsy (absent, null,
false, zero or the empty string); whenever both fields are truthy,
regardless of their type, restore proceeds to materialization and returns
the decoded snapshot with the pointer setting advanced. -/
theorem load_truthiness_validation (wsName cid : String)
    (settings : ClineSettings) (env : ProcessEnv) (hasWF : Bool)
    (blob : FetchedBlob) (writeOk : String → Bool) :
    ((blob.version.truthy = false ∨ blob.workspaceId.truthy = false) →
      (pluginIPFSSyncHandler wsName cid settings env hasWF true (some blob) writeOk).loaded
          = none
      ∧ (pluginIPFSSyncHandler wsName cid settings env hasWF true (some blob) writeOk).events
          = [.fetch cid]
      ∧ (pluginIPFSSyncHandler wsName cid settings env hasWF true (some blob) writeOk).settings
          = settings)
    ∧ (blob.version.truthy = true → blob.workspaceId.truthy = true →
      (pluginIPFSSyncHandler wsName cid settings env hasWF true (some blob) writeOk).loaded
          = some blob
      ∧ (pluginIPFSSyncHandler wsName cid settings env hasWF true (some blob) writeOk).settings.workspaceIpfsCID
          = some cid
      ∧ (pluginIPFSSyncHandler wsName cid settings env hasWF true (some blob) writeOk).events
          = [.fetch cid, .settingsUpdateCID (some cid)]
            ++ (syncFromIPFS hasWF blob writeOk).2) := by
  have hj := handlerJwt_truthy settings env
  have hinit := ensureInitialized_fresh wsName settings env
  constructor
  · intro hbad
    have hval : (!blob.version.truthy || !blob.workspaceId.truthy) = true := by
      rcases hbad with h | h <;> simp [h]
    simp [pluginIPFSSyncHandler, loadFromIPFS, hinit, hj, hval]
  · intro h1 h2
    simp [pluginIPFSSyncHandler, loadFromIPFS, hinit, hj, h1, h2]

/-- Blob with falsy (absent) `version`, used by concrete instances. -/
def invalidBlob : FetchedBlob := ⟨.undef, .string "w", [("a.txt", [104])], []⟩

/-- Blob with truthy string fields, used by concrete instances. -/
def validBlob : FetchedBlob := ⟨.string "1.0.0", .string "w", [("a.txt", [104])], ["d"]⟩

/-- Witness for C5's amended theorem at concrete inputs: a blob with an
absent `version` is rejected, a well-formed one is loaded. -/
theorem load_truthiness_validation_witness :
    (pluginIPFSSyncHandler "w" "QmX" ⟨none, none, none⟩ ⟨none, none⟩ true true
        (some invalidBlob) (fun _ => true)).loaded = none
    ∧ (pluginIPFSSyncHandler "w" "QmX" ⟨none, none, none⟩ ⟨none, none⟩ true true
        (some validBlob) (fun _ => true)).loaded = some validBlob := by
  have h1 := (load_truthiness_validation "w" "QmX" ⟨none, none, none⟩ ⟨none, none⟩
      true invalidBlob (fun _ => true)).1 (Or.inl (by decide))
  have h2 := (load_truthiness_validation "w" "QmX" ⟨none, none, none⟩ ⟨none, none⟩
      true validBlob (fun _ => true)).2 (by decide) (by decide)
  exact ⟨h1.1, h2.1⟩

/-- Decidable eligibility of an enumeration entry: not excluded by the
ignore pattern, a plain file, readable, and text (no null byte). -/
def eligibleEntry (e : FsEntry) : Bool :=
  !e.ignored && e.statResult == some .file
    && (match e.content with
        | some b => isTextFile b
        | none => false)

/-- Unfolding of `eligibleEntry`. -/
theorem eligibleEntry_spec (e : FsEntry) (h : eligibleEntry e = true) :
    e.ignored = false ∧ e.statResult = some .file
    ∧ ∃ b, e.content = some b ∧ isTextFile b = true := by
  rcases e with ⟨p, ign, st, co⟩
  unfold eligibleEntry at h
  rcases co with _ | b
  · simp at h
  · simp only [Bool.and_eq_true, Bool.not_eq_true', beq_iff_eq] at h
    exact ⟨h.1.1, h.1.2, b, rfl, h.2⟩

/-- Assigning a key that is not yet present appends the binding. -/
theorem setKey_of_fresh (m : List (String × ByteSeq)) (k : String) (v : ByteSeq)
    (h : ∀ q ∈ m, q.1 ≠ k) : setKey m k v = m ++ [(k, v)] := by
  have hany : m.any (fun p => p.1 == k) = false := by
    rw [List.any_eq_false]
    intro p hp
    simp [h p hp]
  simp [setKey, hany]

/-- Folding the serializer loop over eligible entries with pairwise
distinct paths appends one text binding per entry, in enumeration order,
and leaves the folder list alone. -/
theorem processEntries_eligible_append (l : List FsEntry)
    (acc : List (String × ByteSeq) × List String)
    (helig : ∀ e ∈ l, eligibleEntry e = true)
    (hnodup : (l.map (fun e => e.path)).Nodup)
    (hfresh : ∀ e ∈ l, ∀ q ∈ acc.1, q.1 ≠ e.path) :
    (l.foldl processEntry acc).1
        = acc.1 ++ l.map (fun e => (e.path, e.content.getD []))
    ∧ (l.foldl processEntry acc).2 = acc.2 := by
  induction l generalizing acc with
  | nil => simp
  | cons e rest ih =>
    obtain ⟨_hign, hstat, b, hb, htext⟩ := eligibleEntry_spec e (helig e (by simp))
    have hfr : ∀ q ∈ acc.1, q.1 ≠ e.path := fun q hq => hfresh e (by simp) q hq
    have hstep : processEntry acc e = (acc.1 ++ [(e.path, b)], acc.2) := by
      simp [processEntry, hstat, hb, htext, setKey_of_fresh acc.1 e.path b hfr]
    simp only [List.map_cons, List.nodup_cons] at hnodup
    have hnotin : e.path ∉ rest.map (fun e => e.path) := hnodup.1
    have hfresh2 : ∀ e2 ∈ rest, ∀ q ∈ acc.1 ++ [(e.path, b)], q.1 ≠ e2.path := by
      intro e2 he2 q hq
      rcases List.mem_append.1 hq with hq | hq
      · exact hfresh e2 (by simp [he2]) q hq
      · simp only [List.mem_singleton] at hq
        subst hq
        intro hcon
        apply hnotin
        have hpe : e.path = e2.path := hcon
        rw [hpe]
        exact List.mem_map_of_mem (fun e => e.path) he2
    have ihr := ih (acc.1 ++ [(e.path, b)], acc.2)
      (fun e2 he2 => helig e2 (by simp [he2])) hnodup.2 hfresh2
    rw [List.foldl_cons, hstep]
    refine ⟨?_, ihr.2⟩
    rw [ihr.1]
    simp [hb]

/-- C6: cap enforcement.  For an enumeration of eligible files (text
content, not matching the ignore pattern, readable) with pairwise
distinct paths, serialization truncates the enumeration in its
deterministic order at `fileCap` entries — the `files` mapping is exactly
the first `min length fileCap` entries, in order, and in particular an
enumeration of 150 eligible files yields exactly 100 entries.  The cap is
enforced by `List.take`, never by raising an error (`serializeWorkspaceState`
is total). -/
theorem serialization_cap_truncates (wid ts : String)
    (provider : Option ExtensionStateProvider) (entries : List FsEntry)
    (helig : ∀ e ∈ entries, eligibleEntry e = true)
    (hnodup : (entries.map (fun e => e.path)).Nodup) :
    (serializeWorkspaceState wid ts provider entries).files
        = (entries.take fileCap).map (fun e => (e.path, e.content.getD []))
    ∧ (serializeWorkspaceState wid ts provider entries).files.length
        = min entries.length fileCap := by
  have hfilter : entries.filter (fun e => !e.ignored) = entries := by
    rw [List.filter_eq_self]
    intro e he
    simp [(eligibleEntry_spec e (helig e he)).1]
  have hslice : enumerationSlice entries = entries.take fileCap := by
    unfold enumerationSlice
    rw [hfilter]
  have htok : ∀ e ∈ entries.take fileCap, eligibleEntry e = true :=
    fun e he => helig e (List.take_subset _ _ he)
  have htnd : ((entries.take fileCap).map (fun e => e.path)).Nodup := by
    rw [List.map_take]
    exact hnodup.sublist (List.take_sublist _ _)
  have hmain := processEntries_eligible_append (entries.take fileCap) ([], [])
    htok htnd (by intro e _ q hq; simp at hq)
  have hfiles : (serializeWorkspaceState wid ts provider entries).files
      = (entries.take fileCap).map (fun e => (e.path, e.content.getD [])) := by
    show (processEntries (enumerationSlice entries)).1 = _
    rw [hslice]
    unfold processEntries
    rw [hmain.1]
    simp
  refine ⟨hfiles, ?_⟩
  rw [hfiles, List.length_map, List.length_take, Nat.min_comm]

/-- An enumeration of 150 distinct eligible text files. -/
def capEntries : List FsEntry :=
  (List.range 150).map (fun i =>
    { path := "f" ++ toString i, ignored := false, statResult := some .file,
      content := some [104] })

set_option maxRecDepth 4000 in
/-- Witness for C6 at a concrete input: a scan root with 150 eligible
files yields exactly `min 150 fileCap = 100` entries in `files`. -/
theorem serialization_cap_truncates_witness :
    (serializeWorkspaceState "w" "t" none capEntries).files.length
      = min 150 fileCap := by
  have h := serialization_cap_truncates "w" "t" none capEntries
    (by decide) (by decide)
  have hl : capEntries.length = 150 := by decide
  rw [hl] at h
  exact h.2

/-- Membership after `setKey`: an element is an untouched original
binding or carries the newly assigned value. -/
theorem setKey_mem (m : List (String × ByteSeq)) (k : String) (v : ByteSeq)
    (q : String × ByteSeq) (hq : q ∈ setKey m k v) : q ∈ m ∨ q = (k, v) := by
  unfold setKey at hq
  split at hq
  · rcases List.mem_map.1 hq with ⟨p, hp, he⟩
    by_cases hpk : p.1 = k
    · right
      simp only [hpk, beq_self_eq_true, if_true] at he
      exact he.symm
    · left
      simp only [beq_iff_eq, hpk, if_false] at he
      exact he ▸ hp
  · rcases List.mem_append.1 hq with h | h
    · exact Or.inl h
    · exact Or.inr (List.mem_singleton.1 h)

/-- Every value the serializer loop accumulates is null-byte free,
because only content passing `isTextFile` is ever assigned. -/
theorem processEntries_values_text (l : List FsEntry) :
    ∀ acc : List (String × ByteSeq) × List String,
      (∀ q ∈ acc.1, q.2.contains 0 = false) →
      ∀ q ∈ (l.foldl processEntry acc).1, q.2.contains 0 = false := by
  induction l with
  | nil => exact fun acc hacc => hacc
  | cons e rest ih =>
    intro acc hacc
    rw [List.foldl_cons]
    apply ih
    intro q hq
    rcases e with ⟨p, ign, st, co⟩
    rcases st with _ | ft
    · exact hacc q hq
    · cases ft with
      | file =>
        rcases co with _ | b
        · exact hacc q hq
        · rcases htext : isTextFile b with _ | _
          · simp only [processEntry, htext, Bool.false_eq_true, if_false] at hq
            exact hacc q hq
          · simp only [processEntry, htext, if_true] at hq
            rcases setKey_mem acc.1 p b q hq with h | h
            · exact hacc q h
            · rw [h]
              unfold isTextFile at htext
              simpa using htext
      | directory => exact hacc q hq
      | symbolicLink => exact hacc q hq
      | unknown => exact hacc q hq

/-- When no entry of the enumeration can insert the key `p0` (no entry
with that path has readable text content), the key never appears among
the accumulated file bindings. -/
theorem processEntries_key_frozen (l : List FsEntry) :
    ∀ (acc : List (String × ByteSeq) × List String) (p0 : String),
      (∀ e ∈ l, e.path = p0 → ∀ b, e.content = some b → isTextFile b = false) →
      (∀ q ∈ acc.1, q.1 ≠ p0) →
      ∀ q ∈ (l.foldl processEntry acc).1, q.1 ≠ p0 := by
  induction l with
  | nil => exact fun acc p0 _ hacc => hacc
  | cons e rest ih =>
    intro acc p0 hnoins hacc
    rw [List.foldl_cons]
    apply ih (processEntry acc e) p0
      (fun e2 he2 hpe b hb => hnoins e2 (by simp [he2]) hpe b hb)
    intro q hq
    rcases e with ⟨p, ign, st, co⟩
    rcases st with _ | ft
    · exact hacc q hq
    · cases ft with
      | file =>
        rcases co with _ | b
        · exact hacc q hq
        · rcases htext : isTextFile b with _ | _
          · simp only [processEntry, htext, Bool.false_eq_true, if_false] at hq
            exact hacc q hq
          · simp only [processEntry, htext, if_true] at hq
            rcases setKey_mem acc.1 p b q hq with h | h
            · exact hacc q h
            · rw [h]
              intro hcon
              have hf := hnoins ⟨p, ign, some .file, some b⟩ (by simp) hcon b rfl
              rw [htext] at hf
              exact Bool.true_eq_false.mp hf
      | directory => exact hacc q hq
      | symbolicLink => exact hacc q hq
      | unknown => exact hacc q hq

/-- C7: binary exclusion.  Every value stored in the snapshot's `files`
mapping is null-byte free, and (when enumeration paths are pairwise
distinct) no key of `files` refers to a file whose bytes contain a null
byte. -/
theorem binary_files_excluded (wid ts : String)
    (provider : Option ExtensionStateProvider) (entries : List FsEntry) :
    (∀ q ∈ (serializeWorkspaceState wid ts provider entries).files,
        q.2.contains 0 = false)
    ∧ ((entries.map (fun e => e.path)).Nodup →
        ∀ e ∈ entries, ∀ b, e.content = some b → b.contains 0 = true →
          ∀ q ∈ (serializeWorkspaceState wid ts provider entries).files,
            q.1 ≠ e.path) := by
  constructor
  · intro q hq
    exact processEntries_values_text (enumerationSlice entries) ([], [])
      (by intro q hq2; simp at hq2) q hq
  · intro hnd e he b hb hbin q hq
    apply processEntries_key_frozen (enumerationSlice entries) ([], []) e.path
      ?_ (by intro q hq2; simp at hq2) q hq
    intro e2 he2 hpe b2 hb2
    have he2' : e2 ∈ entries :=
      List.mem_of_mem_filter (List.take_subset _ _ he2)
    have hee : e2 = e := List.inj_on_of_nodup_map hnd he2' he hpe
    subst hee
    rw [hb2] at hb
    have hbb : b2 = b := by injection hb
    subst hbb
    unfold isTextFile
    rw [hbin]
    rfl

/-- A text file used by concrete instances. -/
def textEntry : FsEntry := ⟨"a.txt", false, some .file, some [104, 105]⟩

/-- A binary file (bytes contain a null byte) used by concrete
instances. -/
def binEntry : FsEntry := ⟨"b.bin", false, some .file, some [104, 0, 105]⟩

/-- Witness for C7 at a concrete input: serializing a text file next to a
binary file yields a `files` mapping in which every binding avoids the
binary file's key and stores null-free content. -/
theorem binary_files_excluded_witness :
    ((serializeWorkspaceState "w" "t" none [textEntry, binEntry]).files.all
      (fun q => q.1 != "b.bin" && !q.2.contains 0)) = true := by
  rw [List.all_eq_true]
  intro q hq
  have h := binary_files_excluded "w" "t" none [textEntry, binEntry]
  have h1 := h.1 q hq
  have h2 := h.2 (by decide) binEntry (by decide) [104, 0, 105] rfl (by decide) q hq
  simp only [Bool.and_eq_true]
  refine ⟨bne_iff_ne.mpr h2, ?_⟩
  rw [h1]
  rfl

/-- C8 counterexample: with no credential configured in settings or
environment, the configuration lookup does not fail closed — it silently
succeeds with the bundled hard-coded JWT. -/
theorem config_bundled_fallback_counterexample :
    getPinataConfig ⟨none, none, none⟩ ⟨none, none⟩
      = some ⟨hardcodedJwt, some "gateway.pinata.cloud"⟩ := by
  rfl

/-- C8 as amended: resolving the storage configuration never fails; when
no blob-store credential is configured in settings or environment it
silently falls back to the bundled hard-coded secret instead of reporting
a configuration error. -/
theorem config_never_fails (settings : ClineSettings) (env : ProcessEnv) :
    (getPinataConfig settings env).isSome = true
    ∧ (strTruthy settings.pinataJwt = false → strTruthy env.pinataJwt = false →
        Option.map PinataConfig.jwt (getPinataConfig settings env)
          = some hardcodedJwt) := by
  have hyes : strTruthy (strOr (strOr settings.pinataJwt env.pinataJwt)
      (some hardcodedJwt)) = true :=
    strOr_truthy_right _ _ (by decide)
  constructor
  · simp [getPinataConfig, hyes]
  · intro h1 h2
    have hjwt : strOr (strOr settings.pinataJwt env.pinataJwt)
        (some hardcodedJwt) = some hardcodedJwt := by
      simp [strOr, h1, h2]
    simp [getPinataConfig, hjwt, hyes]
    rfl

/-- Witness for C8's amended theorem at a concrete input: an empty-string
settings JWT and no environment JWT still yield a configuration, carrying
the bundled secret. -/
theorem config_never_fails_witness :
    (getPinataConfig ⟨some "", none, none⟩ ⟨none, none⟩).isSome = true
    ∧ Option.map PinataConfig.jwt (getPinataConfig ⟨some "", none, none⟩ ⟨none, none⟩)
        = some hardcodedJwt := by
  have h := config_never_fails ⟨some "", none, none⟩ ⟨none, none⟩
  exact ⟨h.1, h.2 (by decide) (by decide)⟩

/-- C9: a successful restore also advances the pointer.  Whenever
`loadFromIPFS cid` returns a snapshot, the in-memory current CID and the
persisted `cline.workspace.ipfsCID` setting both equal `cid`
afterwards. -/
theorem load_success_advances_pointer (svc : PinataService)
    (settings : ClineSettings) (env : ProcessEnv) (cid : String)
    (authOk : Bool) (fetchResult : Option FetchedBlob) (blob : FetchedBlob)
    (h : (loadFromIPFS svc settings env cid authOk fetchResult).ret = some blob) :
    (loadFromIPFS svc settings env cid authOk fetchResult).svc.currentCID = some cid
    ∧ (loadFromIPFS svc settings env cid authOk fetchResult).settings.workspaceIpfsCID
        = some cid := by
  unfold loadFromIPFS at h ⊢
  rcases hinit : ensureInitialized svc settings env authOk with ⟨ok, svc1⟩
  rw [hinit] at h
  cases ok
  · simp at h
  · rcases fetchResult with _ | blob2
    · simp at h
    · rcases hval : (!blob2.version.truthy || !blob2.workspaceId.truthy) with _ | _
      · simp only [hval, Bool.false_eq_true, if_false] at h ⊢
        exact ⟨by simp, by simp⟩
      · simp only [hval, if_true] at h
        simp at h

/-- Witness for C9 at a concrete input. -/
theorem load_success_advances_pointer_witness :
    (loadFromIPFS ⟨"w", true, none⟩ ⟨none, none, none⟩ ⟨none, none⟩ "QmX" true
        (some validBlob)).svc.currentCID = some "QmX"
    ∧ (loadFromIPFS ⟨"w", true, none⟩ ⟨none, none, none⟩ ⟨none, none⟩ "QmX" true
        (some validBlob)).settings.workspaceIpfsCID = some "QmX" :=
  load_success_advances_pointer ⟨"w", true, none⟩ ⟨none, none, none⟩ ⟨none, none⟩
    "QmX" true (some validBlob) validBlob rfl

/-- Commit never unpins when the in-memory CID is absent, whatever the
persisted setting holds. -/
theorem commit_no_unpin_of_no_memory_cid (svc : PinataService)
    (settings : ClineSettings) (env : ProcessEnv) (ts : String)
    (provider : Option ExtensionStateProvider) (entries : List FsEntry)
    (o : CommitOracle) (hnone : svc.currentCID = none) :
    ∀ c, Event.unpin c ∉ (commitToIPFS svc settings env ts provider entries o).events := by
  intro c
  unfold commitToIPFS
  have hcid := ensureInitialized_currentCID svc settings env o.authOk
  rcases hinit : ensureInitialized svc settings env o.authOk with ⟨ok, svc1⟩
  rw [hinit] at hcid
  rw [hnone] at hcid
  have hcid2 : svc1.currentCID = none := hcid
  cases ok
  · simp
  · rcases hup : o.uploadFn (serializeWorkspaceState svc1.workspaceId ts provider entries)
      with _ | ncid
    · simp [hcid2, hup]
    · simp [hcid2, hup]

/-- C10: the commit's unpin decision reads only the in-memory current-CID
field: with no in-memory CID no unpin is ever issued, with an in-memory
CID the unpin of exactly that CID is issued (independently of the
persisted setting), and the commit command handler — which always
constructs a fresh service whose in-memory CID starts as null — therefore
issues no unpin on its first commit even when a previous ContentId is
persisted in the workspace settings. -/
theorem commit_unpin_decision_from_memory_only (svc : PinataService)
    (settings : ClineSettings) (env : ProcessEnv) (ts : String)
    (provider : Option ExtensionStateProvider) (entries : List FsEntry)
    (o : CommitOracle) (wsName prev : String) :
    (svc.currentCID = none →
      ∀ c, Event.unpin c ∉ (commitToIPFS svc settings env ts provider entries o).events)
    ∧ (svc.pinataInitialized = true → svc.currentCID = some prev →
      Event.unpin prev ∈ (commitToIPFS svc settings env ts provider entries o).events)
    ∧ (settings.workspaceIpfsCID = some prev →
      ∀ c, Event.unpin c
        ∉ (pluginIPFSCommitHandler wsName settings env ts provider entries o).events) := by
  refine ⟨fun hnone =>
    commit_no_unpin_of_no_memory_cid svc settings env ts provider entries o hnone,
    ?_, ?_⟩
  · intro hinit hprev
    unfold commitToIPFS
    rw [ensureInitialized_of_initialized svc settings env o.authOk hinit]
    rcases hup : o.uploadFn (serializeWorkspaceState svc.workspaceId ts provider entries)
      with _ | ncid
    · simp [hprev, hup]
    · simp [hprev, hup]
  · intro _hset c
    have hmem := commit_no_unpin_of_no_memory_cid (PinataService.new wsName) settings
      env ts provider entries o rfl c
    simpa [pluginIPFSCommitHandler, handlerJwt_truthy settings env] using hmem

/-- Witness for C10 at a concrete input: the settings persist `QmPrev`,
yet the first commit on a fresh handler-constructed service issues no
unpin of it. -/
theorem commit_unpin_decision_from_memory_only_witness :
    Event.unpin "QmPrev"
      ∉ (pluginIPFSCommitHandler "w" ⟨none, none, some "QmPrev"⟩ ⟨none, none⟩ "t"
          none [] ⟨true, fun _ => some "QmNew", none⟩).events :=
  (commit_unpin_decision_from_memory_only (PinataService.new "w")
    ⟨none, none, some "QmPrev"⟩ ⟨none, none⟩ "t" none []
    ⟨true, fun _ => some "QmNew", none⟩ "w" "QmPrev").2.2 rfl "QmPrev"

end MCX
